import Mathlib

/-!
Verification of the polyglot-reader ebook catalog engine (TypeScript backend)
against its natural-language specification.

The relevant source functions are shallowly embedded below.  Text is modelled
as `List Char`; the JavaScript string helpers used by the code (trim,
toLowerCase, whitespace collapsing, substring search, split) are implemented
on `List Char`.  Unicode NFKD normalization appearing in the source
(`value.normalize('NFKD')`) is modelled as the identity: every concrete string
occurring in the checked claims is ASCII and hence NFKD-normal, and the
subsequent stripping of combining marks (U+0300..U+036F) is embedded
faithfully.
-/

namespace PolyglotReader

/-- Character whitespace test matching the JS regex class \s on the
whitespace characters that occur in catalog data. -/
def isWs (c : Char) : Bool :=
  c == ' ' || c == '\t' || c == '\n' || c == '\r'

/-- JS String.prototype.trim on a character list (leading and trailing
whitespace removed). -/
def trimL (s : List Char) : List Char :=
  ((s.dropWhile isWs).reverse.dropWhile isWs).reverse

/-- JS String.prototype.toLowerCase restricted to the code points the catalog
claims exercise (ASCII case mapping). -/
def toLowerL (s : List Char) : List Char :=
  s.map Char.toLower

/-- Auxiliary state-passing pass for collapsing whitespace runs: `prevWs`
records whether the previous character was whitespace already emitted as a
single space. -/
def collapseWsAux : Bool → List Char → List Char
  | _, [] => []
  | prevWs, c :: rest =>
    if isWs c then
      if prevWs then collapseWsAux true rest
      else ' ' :: collapseWsAux true rest
    else c :: collapseWsAux false rest

/-- JS value.replace of every whitespace run by a single space. -/
def collapseWs (s : List Char) : List Char :=
  collapseWsAux false s

/-- Combining-mark filter for the range U+0300..U+036F, embedding the source
replace of that character class after NFKD. -/
def stripMarks (s : List Char) : List Char :=
  s.filter (fun c => !(0x300 ≤ c.toNat && c.toNat ≤ 0x36f))

/-- Embedding of normalizeForCatalogNorm: trim, NFKD (identity on the ASCII
inputs considered) with combining marks stripped, whitespace collapsed,
trimmed and lower-cased.  Source: part_001 lines 1817-1823. -/
def normalizeForCatalogNorm (value : List Char) : List Char :=
  let raw := trimL value
  if raw = [] then []
  else
    let noMarks := stripMarks raw
    toLowerL (trimL (collapseWs noMarks))

/-- Embedding of toCatalogId: the deterministic catalog row id built from the
normalization key (language, normalized title, normalized author).
Source: part_001 lines 1824-1825. -/
def toCatalogId (lang title author : List Char) : List Char :=
  lang ++ "::".toList ++ normalizeForCatalogNorm title
    ++ "::".toList ++ normalizeForCatalogNorm author

/-- Bool test whether pat is an initial segment of s (JS startsWith). -/
def startsWithL : List Char → List Char → Bool
  | [], _ => true
  | _ :: _, [] => false
  | p :: ps, c :: cs => p == c && startsWithL ps cs

/-- Bool substring containment (JS String.prototype.includes): needle occurs
contiguously inside hay. -/
def containsL (hay needle : List Char) : Bool :=
  match hay with
  | [] => startsWithL needle []
  | _ :: rest => startsWithL needle hay || containsL rest needle

/-- One global literal replacement step with explicit fuel (the fuel is the
length of the subject, enough because every step consumes at least one
character of it). -/
def replaceAllAux (pat rep : List Char) : Nat → List Char → List Char
  | 0, s => s
  | _ + 1, [] => []
  | fuel + 1, c :: rest =>
    if pat ≠ [] && startsWithL pat (c :: rest) then
      rep ++ replaceAllAux pat rep fuel ((c :: rest).drop pat.length)
    else
      c :: replaceAllAux pat rep fuel rest

/-- JS value.replace with a global literal pattern. -/
def replaceAllL (pat rep s : List Char) : List Char :=
  replaceAllAux pat rep s.length s

/-- Embedding of decodeXmlEntities: the five sequential global entity
replacements.  Source: part_001 lines 54-60. -/
def decodeXmlEntities (value : List Char) : List Char :=
  replaceAllL ("&#39;".toList) ("\x27".toList)
    (replaceAllL ("&quot;".toList) ("\"".toList)
      (replaceAllL ("&gt;".toList) (">".toList)
        (replaceAllL ("&lt;".toList) ("<".toList)
          (replaceAllL ("&amp;".toList) ("&".toList) value))))

/-- Embedding of normalizeTitle: trim then entity-decode.
Source: part_001 line 849. -/
def normalizeTitle (title : List Char) : List Char :=
  decodeXmlEntities (trimL title)

/-- ASCII letter test (the i-flagged [a-z] class of the MARC regex). -/
def isAsciiAlpha (c : Char) : Bool :=
  ('a' ≤ c && c ≤ 'z') || ('A' ≤ c && c ≤ 'Z')

/-- ASCII word-character test backing the regex word boundary \b. -/
def isWordChar (c : Char) : Bool :=
  ('a' ≤ c && c ≤ 'z') || ('A' ≤ c && c ≤ 'Z') || ('0' ≤ c && c ≤ '9') || c == '_'

/-- Whether the MARC-subfield pattern (optional whitespace, a dollar sign, an
ASCII letter, then a word boundary) matches at the head of s. -/
def marcStartsHere (s : List Char) : Bool :=
  match s.dropWhile isWs with
  | '$' :: l :: rest => isAsciiAlpha l && (match rest with
      | [] => true
      | c :: _ => !isWordChar c)
  | _ => false

/-- Deletion from the leftmost MARC-subfield match to the end of the (single
line) title, embedding the source replace of that anchored regex. -/
def stripMarc : List Char → List Char
  | [] => []
  | c :: rest => if marcStartsHere (c :: rest) then [] else c :: stripMarc rest

/-- Index cut at the first colon (JS indexOf plus slice): everything from the
first colon onward is dropped, or the whole list is kept when no colon
occurs. -/
def beforeFirstColon (s : List Char) : List Char :=
  match s with
  | [] => []
  | c :: rest => if c = ':' then [] else c :: beforeFirstColon rest

/-- Embedding of normalizeMainTitle: entity-decoded trimmed title, MARC
subfield fragments stripped, cut at the first subtitle colon, whitespace
collapsed and trimmed.  Source: part_001 lines 858-870. -/
def normalizeMainTitle (title : List Char) : List Char :=
  let base := normalizeTitle title
  if base = [] then []
  else trimL (collapseWs (beforeFirstColon (stripMarc base)))

/-- The closed set of upstream sources (TypeScript union EbookSource,
part_001 line 5). -/
inductive EbookSource
  | gutendex
  | standardebooks
  | wikisource
  | wolnelektury
  | manybooks
deriving DecidableEq, Repr

/-- Embedding of the ApiEbook record (part_001 lines 7-18).  The TypeScript
fields _source and _popularity are named source and popularity here because
Lean names cannot begin with an underscore; optional / nullable fields are
Option. -/
structure ApiEbook where
  id : List Char
  title : List Char
  author : List Char
  language : List Char
  category : List Char
  coverUrl : Option (List Char)
  downloadUrl : Option (List Char)
  source : Option EbookSource
  popularity : Option Int
deriving DecidableEq, Repr

/-- Embedding of sourceRank: the fixed curation-quality total order over
sources (part_001 lines 1827-1833). -/
def sourceRank : EbookSource → Nat
  | .standardebooks => 0
  | .wolnelektury => 1
  | .gutendex => 2
  | .wikisource => 3
  | .manybooks => 4

/-- JS truthiness of b.coverUrl (null, undefined and the empty string are
falsy). -/
def coverTruthy (b : ApiEbook) : Bool :=
  match b.coverUrl with
  | some c => !c.isEmpty
  | none => false

/-- Numeric popularity with the default 0 used by the merge rule. -/
def popVal (b : ApiEbook) : Int :=
  b.popularity.getD 0

/-- Source rank with the fall-through value 999 for a missing source tag. -/
def rankVal (b : ApiEbook) : Nat :=
  match b.source with
  | some s => sourceRank s
  | none => 999

/-- Embedding of pickBetterCandidate: prefer a cover, then higher popularity,
then a higher-priority (lower-rank) source, otherwise keep the first
argument.  Source: part_001 lines 1835-1851. -/
def pickBetterCandidate (a b : ApiEbook) : ApiEbook :=
  if coverTruthy a ≠ coverTruthy b then (if coverTruthy b then b else a)
  else if popVal a ≠ popVal b then (if popVal b > popVal a then b else a)
  else if rankVal a ≠ rankVal b then (if rankVal b < rankVal a then b else a)
  else a

/-- Strict quality order underlying pickBetterCandidate: b strictly beats a
when b has a cover and a does not, or covers agree and b is more popular, or
covers and popularity agree and b comes from a lower-rank (better) source. -/
def qBetter (a b : ApiEbook) : Prop :=
  (coverTruthy a = false ∧ coverTruthy b = true)
    ∨ (coverTruthy a = coverTruthy b ∧ popVal a < popVal b)
    ∨ (coverTruthy a = coverTruthy b ∧ popVal a = popVal b ∧ rankVal b < rankVal a)

instance (a b : ApiEbook) : Decidable (qBetter a b) := by
  unfold qBetter
  infer_instance

/-- Full tie of the three ranking criteria of pickBetterCandidate: cover
presence, numeric popularity and source rank all agree. -/
def qTied (a b : ApiEbook) : Prop :=
  coverTruthy a = coverTruthy b ∧ popVal a = popVal b ∧ rankVal a = rankVal b

instance (a b : ApiEbook) : Decidable (qTied a b) := by
  unfold qTied
  infer_instance

/-- The final winner of folding one fixed candidate group through the binary
merge rule, in the arrival order of the group (none for the empty group) —
exactly how the sync dedup map accumulates the winner for one key. -/
def foldWinner : List ApiEbook → Option ApiEbook
  | [] => none
  | x :: xs => some (xs.foldl pickBetterCandidate x)

/-- Embedding of hasResolvedAuthor: a trimmed, non-empty author that is not
the case-insensitive sentinel "unknown" (part_001 lines 2016-2019). -/
def hasResolvedAuthor (b : ApiEbook) : Bool :=
  let a := trimL b.author
  !a.isEmpty && toLowerL a ≠ "unknown".toList

/-- The candidate filter applied by the sync merge loop before a candidate
enters the dedup map (part_001 lines 1931-1937): trimmed title, author and
download url must be non-empty and the author must be resolved. -/
def acceptCandidate (b : ApiEbook) : Bool :=
  trimL b.title ≠ [] && trimL b.author ≠ [] && trimL (b.downloadUrl.getD []) ≠ []
    && hasResolvedAuthor b

/-- JS Map.set on an insertion-ordered association list, merging an existing
entry for the key with pickBetterCandidate as the sync loop does
(part_001 lines 1940-1945). -/
def mapSetMerge : List (List Char × ApiEbook) → List Char → ApiEbook →
    List (List Char × ApiEbook)
  | [], k, b => [(k, b)]
  | (k', v) :: rest, k, b =>
    if k' = k then (k', pickBetterCandidate v b) :: rest
    else (k', v) :: mapSetMerge rest k b

/-- The normalization key the sync loop computes for a candidate. -/
def candidateKey (lang : List Char) (b : ApiEbook) : List Char :=
  toCatalogId lang (trimL b.title) (trimL b.author)

/-- Embedding of the dedup fold of syncEbookCatalogLanguage over all fetched
candidates (part_001 lines 1929-1946): the insertion-ordered map from
normalization key to winning candidate. -/
def syncDedupe (lang : List Char) (all : List ApiEbook) :
    List (List Char × ApiEbook) :=
  all.foldl
    (fun m b => if acceptCandidate b then mapSetMerge m (candidateKey lang b) b else m)
    []

/-- Embedding of EbookCatalogItemRow, the persisted catalog row
(part_001 lines 1785-1801).  The audit timestamps created_at, updated_at and
last_seen_at are wall-clock bookkeeping orthogonal to every checked claim and
are omitted. -/
structure EbookCatalogItemRow where
  id : List Char
  lang_code : List Char
  title : List Char
  author : List Char
  category : List Char
  cover_url : Option (List Char)
  download_url : List Char
  source : List Char
  source_id : Option (List Char)
  source_popularity : Option Int
  author_norm : List Char
  title_norm : List Char
deriving DecidableEq, Repr

/-- Name of a source as persisted (String(b._source or gutendex)). -/
def sourceName : EbookSource → List Char
  | .gutendex => "gutendex".toList
  | .standardebooks => "standardebooks".toList
  | .wikisource => "wikisource".toList
  | .wolnelektury => "wolnelektury".toList
  | .manybooks => "manybooks".toList

/-- Category normalization of the persist step: empty falls back to Fiction,
then trim, then empty again falls back to Fiction (String(b.category or
Fiction).trim() or Fiction). -/
def rowCategory (c : List Char) : List Char :=
  let c0 := if c = [] then "Fiction".toList else c
  let c1 := trimL c0
  if c1 = [] then "Fiction".toList else c1

/-- The row the persist step of syncEbookCatalogLanguage builds from one
winning candidate (part_001 lines 1949-1973), or none when the candidate
fails the re-checked filter. -/
def toCatalogRow (lang : List Char) (b : ApiEbook) : Option EbookCatalogItemRow :=
  let title := trimL b.title
  let author := trimL b.author
  let downloadUrl := trimL (b.downloadUrl.getD [])
  if title ≠ [] ∧ author ≠ [] ∧ downloadUrl ≠ [] ∧ hasResolvedAuthor b then
    some
      { id := toCatalogId lang title author
        lang_code := lang
        title := title
        author := author
        category := rowCategory b.category
        cover_url :=
          match b.coverUrl with
          | some c => if c.isEmpty then none else some c
          | none => none
        download_url := downloadUrl
        source := sourceName (b.source.getD .gutendex)
        source_id := some b.id
        source_popularity := b.popularity.map (fun p => max 0 p)
        author_norm := normalizeForCatalogNorm author
        title_norm := normalizeForCatalogNorm title }
  else none

/-- Embedding of the full row set one sync run hands to the persistence
upsert: dedup fold followed by the per-winner row build. -/
def catalogRows (lang : List Char) (all : List ApiEbook) :
    List EbookCatalogItemRow :=
  ((syncDedupe lang all).map Prod.snd).filterMap (toCatalogRow lang)

/-- Fetch-response success test matching resp.ok (status in 200..299). -/
def respOk (status : Nat) : Bool :=
  200 ≤ status && status < 300

/-- What the per-page retry loop of fetchGutendex decides to do next. -/
inductive GutendexAction
  | stop
  | proceed
  | retry (waitBaseMs : Int)
deriving DecidableEq, Repr

/-- Embedding of the wait computed by the 429 branch of fetchGutendex
(part_001 lines 946-950): a parsed Retry-After header value in seconds
(clamped below by 1) converted to milliseconds takes precedence; otherwise
the exponential backoff base 800 ms, factor 2, capped at 8000 ms. -/
def gutendexBackoffMs (attempt : Nat) (retryAfterSeconds : Option Int) : Int :=
  match retryAfterSeconds with
  | some s => (max 1 s) * 1000
  | none => min 8000 (800 * 2 ^ attempt)

/-- Embedding of the full wait of one 429 backoff sleep including the random
jitter term Math.floor(Math.random() * 200), passed in as jitter. -/
def gutendexSleepMs (attempt : Nat) (retryAfterSeconds : Option Int)
    (jitter : Int) : Int :=
  gutendexBackoffMs attempt retryAfterSeconds + jitter

/-- Embedding of the response dispatch of the fetchGutendex attempt loop
(part_001 lines 920-954): 404 ends pagination, 429 retries with backoff while
attempts remain, any other non-ok status (including every 5xx) stops early,
and an ok response proceeds to parsing. -/
def gutendexRetryDecision (status attempt maxRetries : Nat)
    (retryAfterSeconds : Option Int) : GutendexAction :=
  if status = 404 then .stop
  else if status = 429 then
    if attempt ≥ maxRetries then .stop
    else .retry (gutendexBackoffMs attempt retryAfterSeconds)
  else if respOk status then .proceed
  else .stop

/-- Fixed ManyBooks circuit-breaker cool-down window in milliseconds
(part_001 line 1431: one hour). -/
def MANYBOOKS_BLOCK_TTL_MS : Nat := 3600000

/-- A ManyBooks HTTP response as seen by fetchManyBooksXml: status, the
content-type header and the response body text. -/
structure MBResponse where
  status : Nat
  contentType : List Char
  body : List Char
deriving DecidableEq, Repr

/-- The lower-cased first 240 characters of the left-trimmed body, as
inspected for challenge markers (part_001 line 1463). -/
def mbHead (resp : MBResponse) : List Char :=
  toLowerL ((resp.body.dropWhile isWs).take 240)

/-- Embedding of the looksHtml challenge test of fetchManyBooksXml
(part_001 lines 1464-1469). -/
def mbLooksHtml (resp : MBResponse) : Bool :=
  let ct := toLowerL resp.contentType
  let head := mbHead resp
  containsL ct ("text/html".toList)
    || startsWithL ("<!doctype".toList) head
    || startsWithL ("<html".toList) head
    || containsL head ("cloudflare".toList)
    || containsL head ("just a moment".toList)

/-- The status fetchManyBooksXml attributes to a failed response: an HTML
challenge is treated as 403 regardless of the raw status
(part_001 line 1473). -/
def mbEffectiveStatus (resp : MBResponse) : Nat :=
  if mbLooksHtml resp then 403 else resp.status

/-- Whether a response opens the ManyBooks circuit (part_001 lines
1471-1476): the response failed or looks like a challenge, and the effective
status is 403 or 429. -/
def mbBlockSignal (resp : MBResponse) : Bool :=
  (!respOk resp.status || mbLooksHtml resp)
    && (mbEffectiveStatus resp = 403 || mbEffectiveStatus resp = 429)

/-- Embedding of fetchManyBooksXml over the module-level block timer
(part_001 lines 1442-1482): the result is the new value of
manyBooksBlockedUntil together with either the thrown status or the body.
While the circuit is open the call throws 403 before any outbound request. -/
def mbXmlResult (blockedUntil now : Nat) (resp : MBResponse) :
    Nat × Except Nat (List Char) :=
  if now < blockedUntil then (blockedUntil, .error 403)
  else if !respOk resp.status || mbLooksHtml resp then
    (if mbEffectiveStatus resp = 403 ∨ mbEffectiveStatus resp = 429 then
        now + MANYBOOKS_BLOCK_TTL_MS
      else blockedUntil,
      .error (mbEffectiveStatus resp))
  else (blockedUntil, .ok resp.body)

/-- What the entry guard of fetchManyBooks does: empty means the call returns
an empty list immediately (no outbound request, no error); attempt means it
proceeds to issue outbound requests (part_001 lines 1557-1558). -/
inductive MBFetchEntry
  | empty
  | attempt
deriving DecidableEq, Repr

/-- Embedding of the first line of fetchManyBooks: return [] while the
cool-down window is open, otherwise fetch. -/
def manyBooksFetchEntry (blockedUntil now : Nat) : MBFetchEntry :=
  if now < blockedUntil then .empty else .attempt

/-- Embedding of normalizeForLookup (part_001 lines 262-272): trim and
lower-case, NFKD (identity on the ASCII inputs considered) with combining
marks stripped, every non-alphanumeric run replaced by a space, whitespace
collapsed and trimmed.  Replacing each non-alphanumeric character by a space
before the whitespace collapse yields the same result as the run-based
replacement of the source regex. -/
def normalizeForLookup (value : List Char) : List Char :=
  let raw := toLowerL (trimL value)
  if raw = [] then []
  else
    let noMarks := stripMarks raw
    trimL (collapseWs (noMarks.map
      (fun c => if ('a' ≤ c && c ≤ 'z') || ('0' ≤ c && c ≤ '9') then c else ' ')))

/-- Split of a normalized string on single spaces with empty fragments
dropped (JS split(space).filter(Boolean)). -/
def splitTokens (s : List Char) : List (List Char) :=
  (s.splitOn ' ').filter (fun t => t ≠ [])

/-- JS Set-based distinct-token overlap: the number of distinct want tokens
that also occur among the have tokens. -/
def tokenOverlap (want got : List Char) : Nat :=
  ((splitTokens want).dedup.filter (fun t => t ∈ splitTokens got)).length

/-- An OpenLibrary search document as consumed by pickBestOlDoc
(title, author_name array, numeric cover id). -/
structure OlDoc where
  title : Option (List Char)
  author_name : Option (List (List Char))
  cover_i : Option Int
deriving DecidableEq, Repr

/-- The doc title string with the non-string fallback to empty. -/
def olDocTitle (d : OlDoc) : List Char :=
  d.title.getD []

/-- The doc author names joined by a space, with the non-array fallback to
empty. -/
def olDocAuthor (d : OlDoc) : List Char :=
  match d.author_name with
  | some names => (names.intersperse (" ".toList)).flatten
  | none => []

/-- Whether the doc has a non-empty author_name array. -/
def olDocHasAuthor (d : OlDoc) : Bool :=
  match d.author_name with
  | some names => !names.isEmpty
  | none => false

/-- The per-doc admission filter of the pickBestOlDoc loop (part_001 lines
535-542): a title plus at least one of cover or author, and the optional
requireCover / requireAuthor constraints. -/
def olDocEligible (requireCover requireAuthor : Bool) (d : OlDoc) : Bool :=
  !(olDocTitle d).isEmpty
    && (d.cover_i.isSome || olDocHasAuthor d)
    && (!requireCover || d.cover_i.isSome)
    && (!requireAuthor || olDocHasAuthor d)

/-- Whether the wanted author counts as known (part_001 line 527). -/
def olAuthorKnown (wantAuthor : List Char) : Bool :=
  !wantAuthor.isEmpty && wantAuthor ≠ "unknown".toList

/-- Embedding of the per-doc match score of pickBestOlDoc (part_001 lines
544-567): exact-title 10, substring-title 6, else distinct-token overlap
capped at 4; plus, when the author is known, substring-author 5 or
distinct-token overlap capped at 3. -/
def olDocScore (wantTitle wantAuthor : List Char) (d : OlDoc) : Nat :=
  let haveTitle := normalizeForLookup (olDocTitle d)
  let haveAuthor := normalizeForLookup (olDocAuthor d)
  let titleScore :=
    if haveTitle = wantTitle then 10
    else if containsL haveTitle wantTitle || containsL wantTitle haveTitle then 6
    else min 4 (tokenOverlap wantTitle haveTitle)
  let authorScore :=
    if olAuthorKnown wantAuthor then
      if containsL haveAuthor wantAuthor || containsL wantAuthor haveAuthor then 5
      else min 3 (tokenOverlap wantAuthor haveAuthor)
    else 0
  titleScore + authorScore

/-- The metadata-quality tie-break bonus (cover present plus author present,
part_001 line 570). -/
def olDocBonus (d : OlDoc) : Nat :=
  (if d.cover_i.isSome then 1 else 0) + (if olDocHasAuthor d then 1 else 0)

/-- Embedding of the minimum acceptance score of pickBestOlDoc
(part_001 line 580): 8 when the author is known, otherwise 10 for titles of
at most three tokens and 8 for longer titles. -/
def olThreshold (authorKnown : Bool) (titleTokenCount : Nat) : Nat :=
  if authorKnown then 8
  else if titleTokenCount ≤ 3 then 10
  else 8

/-- The best-candidate fold of pickBestOlDoc: keep the doc with the higher
score, breaking score ties by the quality bonus (part_001 line 573). -/
def olBestFold (wantTitle wantAuthor : List Char)
    (requireCover requireAuthor : Bool) (docs : List OlDoc) :
    Option (OlDoc × Nat × Nat) :=
  docs.foldl
    (fun best d =>
      if olDocEligible requireCover requireAuthor d then
        let score := olDocScore wantTitle wantAuthor d
        let bonus := olDocBonus d
        match best with
        | none => some (d, score, bonus)
        | some (_, bs, bb) =>
          if score > bs ∨ (score = bs ∧ bonus > bb) then some (d, score, bonus)
          else best
      else best)
    none

/-- Embedding of pickBestOlDoc (part_001 lines 519-583): the best-scoring
eligible doc, accepted only when its score reaches the threshold. -/
def pickBestOlDoc (docs : List OlDoc) (title author : List Char)
    (requireCover requireAuthor : Bool) : Option OlDoc :=
  let wantTitle := normalizeForLookup title
  let wantAuthor := normalizeForLookup author
  let authorKnown := olAuthorKnown wantAuthor
  match olBestFold wantTitle wantAuthor requireCover requireAuthor docs with
  | none => none
  | some (d, score, _) =>
    if score < olThreshold authorKnown (splitTokens wantTitle).length then none
    else some d

/-- The PostgREST range(cursor, cursor + limit - 1) window over the ordered
row list a filtered query matches. -/
def dbRange (rows : List EbookCatalogItemRow) (cursor limit : Nat) :
    List EbookCatalogItemRow :=
  (rows.drop cursor).take limit

/-- The paginated payload shape shared by the category, author and search
read operations: items, reported total, echoed cursor and limit, and the
optional nextCursor. -/
structure PageResult where
  items : List EbookCatalogItemRow
  total : Nat
  cursor : Nat
  limit : Nat
  nextCursor : Option Nat
deriving DecidableEq, Repr

/-- Embedding of the page construction of getEbooksCategory (part_001 lines
2446-2480): rows is the full ordered list the category query matches, total
comes from the precomputed counts table.  none models the 404 response taken
when the slice is empty and allowEmpty is not set. -/
def categoryPage (rows : List EbookCatalogItemRow) (total cursor limit : Nat)
    (allowEmpty : Bool) : Option PageResult :=
  let slice := dbRange rows cursor limit
  if slice.isEmpty then
    if allowEmpty then
      some { items := [], total := 0, cursor := cursor, limit := limit, nextCursor := none }
    else none
  else
    some
      { items := slice
        total := if 0 < total then total else cursor + slice.length
        cursor := cursor
        limit := limit
        nextCursor :=
          if 0 < total ∧ cursor + slice.length < total then some (cursor + slice.length)
          else none }

/-- Embedding of the page construction of getEbooksAuthor (part_001 lines
3037-3069): identical to the category page except that an empty slice is
always a 404 (there is no allowEmpty flag). -/
def authorPage (rows : List EbookCatalogItemRow) (total cursor limit : Nat) :
    Option PageResult :=
  let slice := dbRange rows cursor limit
  if slice.isEmpty then none
  else
    some
      { items := slice
        total := if 0 < total then total else cursor + slice.length
        cursor := cursor
        limit := limit
        nextCursor :=
          if 0 < total ∧ cursor + slice.length < total then some (cursor + slice.length)
          else none }

/-- Embedding of the page construction of getEbooksSearch (part_001 lines
2575-2602): rows is the full ordered list the search query matches, the total
is the exact count of that same query, and the nextCursor falls back to a
non-null value whenever a full page was returned. -/
def searchPage (rows : List EbookCatalogItemRow) (cursor limit : Nat) :
    PageResult :=
  let slice := dbRange rows cursor limit
  let total := rows.length
  { items := slice
    total := if 0 < total then total else cursor + slice.length
    cursor := cursor
    limit := limit
    nextCursor :=
      if 0 < total ∧ cursor + slice.length < total then some (cursor + slice.length)
      else if limit ≤ slice.length then some (cursor + slice.length)
      else none }

/-- Association-list lookup modelling JS Map.get. -/
def lookupA {V : Type} : List (List Char × V) → List Char → Option V
  | [], _ => none
  | (k', v) :: rest, k => if k' = k then some v else lookupA rest k

/-- Association-list update modelling JS Map.set (replace in place, append
when new). -/
def setA {V : Type} : List (List Char × V) → List Char → V →
    List (List Char × V)
  | [], k, v => [(k, v)]
  | (k', v') :: rest, k, v =>
    if k' = k then (k', v) :: rest else (k', v') :: setA rest k v

/-- Key removal modelling JS Map.delete on the in-flight key set. -/
def eraseKey : List (List Char) → List Char → List (List Char)
  | [], _ => []
  | k' :: rest, k => if k' = k then eraseKey rest k else k' :: eraseKey rest k

/-- In-memory pool cache TTL (part_001 line 1761: ten minutes). -/
def CACHE_TTL_MS : Nat := 600000

/-- OpenLibrary enrichment cache TTL (part_001 line 304: thirty days). -/
def COVER_CACHE_TTL_MS : Nat := 2592000000

/-- The short negative-cache TTL of the enrichment catch branch
(part_001 line 653: six hours). -/
def OL_NEGATIVE_TTL_MS : Nat := 21600000

/-- The aggregated pool value cached per (language, pool-size) key.  Its
contents are irrelevant to the cache claims; the merged candidate list stands
for the whole record. -/
structure AggregatedPool where
  merged : List ApiEbook
deriving DecidableEq, Repr

/-- State of the pool single-flight cache of getAggregatedPool: the TTL map
poolCache (key to expiry and value) and the in-flight key set poolInFlight
(part_001 lines 1776-1777). -/
structure PoolCacheState where
  cache : List (List Char × (Nat × AggregatedPool))
  inFlight : List (List Char)
deriving DecidableEq, Repr

/-- What a cache entry call resolves to: a cached hit, joining an in-flight
computation, or starting a fresh compute. -/
inductive CacheLookup (V : Type)
  | hit (v : V)
  | join
  | compute
deriving DecidableEq, Repr

/-- Embedding of the read path of getAggregatedPool (part_001 lines
2146-2152): an unexpired cached value wins, then an in-flight computation is
joined, otherwise a fresh compute starts. -/
def poolLookup (st : PoolCacheState) (k : List Char) (now : Nat) :
    CacheLookup AggregatedPool :=
  match lookupA st.cache k with
  | some (exp, d) =>
    if now < exp then .hit d
    else if k ∈ st.inFlight then .join else .compute
  | none => if k ∈ st.inFlight then .join else .compute

/-- Embedding of the completion path of getAggregatedPool (part_001 lines
2154-2164): on success the value is cached with the ten-minute TTL; on
failure nothing is cached; the finally clause always clears the in-flight
entry.  result none models a rejected fetchAggregatedPool. -/
def poolComplete (st : PoolCacheState) (k : List Char) (now : Nat)
    (result : Option AggregatedPool) : PoolCacheState :=
  { cache :=
      match result with
      | some d => setA st.cache k (now + CACHE_TTL_MS, d)
      | none => st.cache
    inFlight := eraseKey st.inFlight k }

/-- The OpenLibrary match record cached by the enrichment layer. -/
structure OlMatch where
  coverUrl : Option (List Char)
  author : Option (List Char)
  title : Option (List Char)
deriving DecidableEq, Repr

/-- The all-null match stored by the catch branch of getBetterOlMatch. -/
def olNullMatch : OlMatch :=
  { coverUrl := none, author := none, title := none }

/-- State of the enrichment single-flight cache of getBetterOlMatch: olCache
and olInFlight (part_001 lines 305-306). -/
structure OlCacheState where
  cache : List (List Char × (Nat × OlMatch))
  inFlight : List (List Char)
deriving DecidableEq, Repr

/-- Embedding of the read path of getBetterOlMatch (part_001 lines 636-641). -/
def olLookup (st : OlCacheState) (k : List Char) (now : Nat) :
    CacheLookup OlMatch :=
  match lookupA st.cache k with
  | some (exp, m) =>
    if now < exp then .hit m
    else if k ∈ st.inFlight then .join else .compute
  | none => if k ∈ st.inFlight then .join else .compute

/-- Embedding of the completion path of getBetterOlMatch (part_001 lines
642-657): on success the match is cached for thirty days; on failure the
catch branch caches the all-null match for six hours (the short negative
cache); the finally clause always clears the in-flight entry.  result none
models a rejected fetchOpenLibraryMatch. -/
def olComplete (st : OlCacheState) (k : List Char) (now : Nat)
    (result : Option OlMatch) : OlCacheState :=
  { cache :=
      match result with
      | some m => setA st.cache k (now + COVER_CACHE_TTL_MS, m)
      | none => setA st.cache k (now + OL_NEGATIVE_TTL_MS, olNullMatch)
    inFlight := eraseKey st.inFlight k }

/-- Embedding of isProbablyGenericGutenbergCover (part_001 lines 274-279):
an auto-generated Gutenberg title-page cover detected by url substrings. -/
def isProbablyGenericGutenbergCover (url : List Char) : Bool :=
  let u := toLowerL url
  if u = [] then false
  else
    containsL u ("gutenberg.org".toList)
      && containsL u ("/cache/epub/".toList)
      && containsL u ("cover".toList)

/-- The cover-upgrade guard of the import merge (part_001 lines 2815-2820):
the incoming cover is non-empty and the existing one is missing or a generic
Gutenberg cover. -/
def canUpgradeCover (existing row : EbookCatalogItemRow) : Bool :=
  let existingCover := trimL (existing.cover_url.getD [])
  let incomingCover := trimL (row.cover_url.getD [])
  incomingCover ≠ [] && (existingCover = [] || isProbablyGenericGutenbergCover existingCover)

/-- The download-url backfill guard of the import merge (part_001 lines
2822-2823): the existing url is empty and the incoming row has one. -/
def canBackfillDownloadUrl (existing row : EbookCatalogItemRow) : Bool :=
  trimL existing.download_url = [] && row.download_url ≠ []

/-- Embedding of the merge of one import row against an existing persisted
row in postEbookCatalogImport (part_001 lines 2808-2846): none means the row
admits neither upgrade and is not written at all; some gives the merged row
that is handed to the upsert. -/
def importMergeExisting (lang source : List Char)
    (existing row : EbookCatalogItemRow) : Option EbookCatalogItemRow :=
  let existingCover := trimL (existing.cover_url.getD [])
  let incomingCover := trimL (row.cover_url.getD [])
  let existingDl := trimL existing.download_url
  if !canUpgradeCover existing row && !canBackfillDownloadUrl existing row then none
  else
    some
      { id := existing.id
        lang_code := if existing.lang_code = [] then lang else existing.lang_code
        title := if existing.title = [] then row.title else existing.title
        author := if existing.author = [] then row.author else existing.author
        category :=
          if existing.category ≠ [] then existing.category
          else if row.category ≠ [] then row.category
          else "Fiction".toList
        cover_url :=
          if canUpgradeCover existing row then some incomingCover
          else if existingCover ≠ [] then some existingCover
          else none
        download_url := if existingDl ≠ [] then existingDl else row.download_url
        source :=
          if canBackfillDownloadUrl existing row then source
          else if existing.source ≠ [] then existing.source
          else source
        source_id :=
          if canBackfillDownloadUrl existing row then
            match row.source_id with
            | some s => if s = [] then none else some s
            | none => none
          else existing.source_id
        source_popularity :=
          match existing.source_popularity with
          | some n => some n
          | none => row.source_popularity
        author_norm :=
          if existing.author_norm ≠ [] then existing.author_norm
          else normalizeForCatalogNorm
            (if existing.author = [] then row.author else existing.author)
        title_norm :=
          if existing.title_norm ≠ [] then existing.title_norm
          else normalizeForCatalogNorm
            (if existing.title = [] then row.title else existing.title) }

/-- Sample candidate: a Gutendex ebook without a cover and without a recorded
popularity, used to exercise the merge and sync pipeline on concrete data. -/
def ebookA : ApiEbook :=
  { id := "gutenberg:1".toList, title := "Alpha".toList, author := "Jane Doe".toList,
    language := "en".toList, category := "Fiction".toList, coverUrl := none,
    downloadUrl := some ("http://a.example/a.epub".toList), source := some .gutendex,
    popularity := none }

/-- Sample candidate sharing the normalization key of ebookA but carrying a
different record (different id and download url); it ties with ebookA on
cover, popularity and source rank. -/
def ebookB : ApiEbook :=
  { ebookA with id := "manybooks:2".toList, downloadUrl := some ("http://b.example/b.epub".toList) }

/-- Sample candidate with a cover, distinguishing it from ebookA under the
merge rule. -/
def ebookC : ApiEbook :=
  { ebookA with id := "standardebooks:3".toList, coverUrl := some ("http://c.example/cover.jpg".toList), source := some .standardebooks }

/-- Sample persisted catalog row used by the pagination and import checks. -/
def rowEx : EbookCatalogItemRow :=
  { id := "en::alpha::jane doe".toList, lang_code := "en".toList,
    title := "Alpha".toList, author := "Jane Doe".toList,
    category := "Fiction".toList, cover_url := none,
    download_url := "http://a.example/a.epub".toList, source := "gutendex".toList,
    source_id := none, source_popularity := none,
    author_norm := "jane doe".toList, title_norm := "alpha".toList }

/-- A concrete fifteen-row result set for the pagination checks. -/
def rowsEx : List EbookCatalogItemRow := List.replicate 15 rowEx

/-- A concrete blocked ManyBooks response: HTTP 403 with an HTML challenge
body. -/
def mbBlockedRespEx : MBResponse :=
  { status := 403, contentType := "text/html".toList,
    body := "<html>Attention Required - Cloudflare</html>".toList }

/-- A concrete OpenLibrary search document matching the wanted title and
author exactly, with a cover. -/
def olDocEx : OlDoc :=
  { title := some ("Pride and Prejudice".toList),
    author_name := some ["Jane Austen".toList], cover_i := some 123 }

/-- An existing persisted row holding a good (non-generic) cover and a
non-empty download url: the import merge must not touch it. -/
def importExistingEx : EbookCatalogItemRow :=
  { rowEx with cover_url := some ("http://covers.example/good.jpg".toList) }

/-- An existing persisted row whose cover is an auto-generated Gutenberg
title-page image, which the import merge may upgrade. -/
def importExistingGenericEx : EbookCatalogItemRow :=
  { rowEx with cover_url := some ("https://www.gutenberg.org/cache/epub/1342/pg1342.cover.medium.jpg".toList) }

/-- An incoming import row carrying a fresh cover and its own download url. -/
def importIncomingEx : EbookCatalogItemRow :=
  { rowEx with cover_url := some ("http://img.manybooks.net/new.jpg".toList), download_url := "http://manybooks.net/x.epub".toList, source := "manybooks".toList }

/-- The merged row the import produces for the generic-cover existing row. -/
def importMergedEx : EbookCatalogItemRow :=
  (importMergeExisting ("en".toList) ("manybooks".toList) importExistingGenericEx importIncomingEx).getD rowEx

/-- The binary merge always returns one of its two arguments. -/
theorem pick_eq_or (a b : ApiEbook) :
    pickBetterCandidate a b = a ∨ pickBetterCandidate a b = b := by
  unfold pickBetterCandidate
  split_ifs <;> simp

/-- A row built by the persist step carries the id toCatalogId of its own
(trimmed) title and author, which is exactly the candidate normalization
key. -/
theorem toCatalogRow_fields (lang : List Char) (b : ApiEbook) (r : EbookCatalogItemRow)
    (h : toCatalogRow lang b = some r) :
    r.id = candidateKey lang b ∧ r.id = toCatalogId lang r.title r.author := by
  simp only [toCatalogRow] at h
  split at h
  · injection h with h
    subst h
    exact ⟨rfl, rfl⟩
  · exact absurd h (by simp)

/-- Map.set either keeps the key list unchanged (existing key) or appends the
new key at the end. -/
theorem mapSetMerge_keys (m : List (List Char × ApiEbook)) (k : List Char) (b : ApiEbook) :
    (mapSetMerge m k b).map Prod.fst
      = if k ∈ m.map Prod.fst then m.map Prod.fst else m.map Prod.fst ++ [k] := by
  induction m with
  | nil => simp [mapSetMerge]
  | cons hd tl ih =>
    obtain ⟨k', v⟩ := hd
    by_cases h : k' = k
    · subst h
      rw [mapSetMerge, if_pos rfl,
        if_pos (List.mem_map_of_mem Prod.fst (List.mem_cons_self _ _))]
      rfl
    · have hne : ¬(k = k') := fun hh => h hh.symm
      by_cases hm : k ∈ tl.map Prod.fst <;>
        simp [mapSetMerge, h, ih, hne, hm]

/-- Map.set preserves the dedup-map invariant that every stored value hashes
to its own key, because the merged winner is one of two candidates with that
key. -/
theorem mapSetMerge_vals (lang k : List Char) (b : ApiEbook)
    (hb : candidateKey lang b = k) :
    ∀ m : List (List Char × ApiEbook),
      (∀ p ∈ m, candidateKey lang p.2 = p.1) →
      ∀ p ∈ mapSetMerge m k b, candidateKey lang p.2 = p.1 := by
  intro m
  induction m with
  | nil =>
    intro _ p hp
    simp [mapSetMerge] at hp
    subst hp
    exact hb
  | cons hd tl ih =>
    obtain ⟨k', v⟩ := hd
    intro hm p hp
    by_cases h : k' = k
    · rw [mapSetMerge, if_pos h] at hp
      rcases List.mem_cons.mp hp with hp | hp
      · subst hp
        rcases pick_eq_or v b with hpick | hpick
        · simp only [hpick]
          exact hm (k', v) (List.mem_cons_self _ _)
        · simp only [hpick]
          rw [hb, h]
      · exact hm p (List.mem_cons_of_mem _ hp)
    · rw [mapSetMerge, if_neg h] at hp
      rcases List.mem_cons.mp hp with hp | hp
      · subst hp
        exact hm (k', v) (List.mem_cons_self _ _)
      · exact ih (fun q hq => hm q (List.mem_cons_of_mem _ hq)) p hp

/-- The dedup fold of one sync run yields a map with pairwise-distinct keys
whose every value hashes to its own key. -/
theorem syncDedupe_inv (lang : List Char) (all : List ApiEbook) :
    ((syncDedupe lang all).map Prod.fst).Nodup
      ∧ ∀ p ∈ syncDedupe lang all, candidateKey lang p.2 = p.1 := by
  unfold syncDedupe
  suffices h : ∀ m : List (List Char × ApiEbook),
      (m.map Prod.fst).Nodup → (∀ p ∈ m, candidateKey lang p.2 = p.1) →
      ((all.foldl
          (fun m b => if acceptCandidate b then mapSetMerge m (candidateKey lang b) b else m)
          m).map Prod.fst).Nodup
        ∧ ∀ p ∈ all.foldl
            (fun m b => if acceptCandidate b then mapSetMerge m (candidateKey lang b) b else m)
            m, candidateKey lang p.2 = p.1 by
    exact h [] (by simp) (by simp)
  induction all with
  | nil => intro m h1 h2; exact ⟨h1, h2⟩
  | cons x xs ih =>
    intro m h1 h2
    rw [List.foldl_cons]
    by_cases hx : acceptCandidate x = true
    · simp only [hx, if_true]
      refine ih (mapSetMerge m (candidateKey lang x) x) ?_ ?_
      · rw [mapSetMerge_keys]
        split_ifs with hk
        · exact h1
        · simp [List.nodup_append, h1, hk]
      · exact mapSetMerge_vals lang (candidateKey lang x) x rfl m h2
    · simp only [hx, if_false]
      exact ih m h1 h2

/-- The id list of the rows built from the dedup map is a sublist of the map
key list. -/
theorem rows_ids_sublist (lang : List Char) :
    ∀ m : List (List Char × ApiEbook),
      (∀ p ∈ m, candidateKey lang p.2 = p.1) →
      List.Sublist (((m.map Prod.snd).filterMap (toCatalogRow lang)).map (fun r => r.id))
        (m.map Prod.fst) := by
  intro m
  induction m with
  | nil => simp
  | cons hd tl ih =>
    obtain ⟨k, v⟩ := hd
    intro hm
    simp only [List.map_cons, List.filterMap_cons]
    cases hv : toCatalogRow lang v with
    | none =>
      exact (ih (fun q hq => hm q (List.mem_cons_of_mem _ hq))).cons k
    | some r =>
      simp only [List.map_cons]
      have hid : r.id = k := by
        rw [(toCatalogRow_fields lang v r hv).1]
        exact hm (k, v) (List.mem_cons_self _ _)
      rw [hid]
      exact (ih (fun q hq => hm q (List.mem_cons_of_mem _ hq))).cons₂ k

/-- Claim C1: for every catalog synchronization run, the row set handed to
the persistence upsert contains at most one row per normalization key — the
row ids are pairwise distinct and each row's id is the deterministic function
toCatalogId of that row's (language, title, author) key — and, the embedded
run being a pure function of the language and the fetched candidates,
re-running it over the same fetched candidates yields definitionally the same
row list, hence the same id set and count, so a second run only updates
existing rows and never creates duplicates. -/
theorem sync_rows_unique (lang : List Char) (all : List ApiEbook) :
    ((catalogRows lang all).map (fun r => r.id)).Nodup
      ∧ (∀ r ∈ catalogRows lang all, r.id = toCatalogId lang r.title r.author)
      ∧ catalogRows lang all = catalogRows lang all := by
  obtain ⟨hnd, hinv⟩ := syncDedupe_inv lang all
  refine ⟨?_, ?_, rfl⟩
  · have hsub := rows_ids_sublist lang (syncDedupe lang all) hinv
    exact hnd.sublist hsub
  · intro r hr
    unfold catalogRows at hr
    obtain ⟨b, _, hbr⟩ := List.mem_filterMap.mp hr
    exact (toCatalogRow_fields lang b r hbr).2

/-- Witness for C1: on two concrete candidates sharing one normalization key
the sync produces a single row with distinct (trivially) ids. -/
theorem sync_rows_unique_witness :
    ((catalogRows ("en".toList) [ebookA, ebookB]).map (fun r => r.id)).Nodup
      ∧ (catalogRows ("en".toList) [ebookA, ebookB]).length = 1 :=
  ⟨(sync_rows_unique ("en".toList) [ebookA, ebookB]).1, by decide⟩

/-- Counterexample for C2: two candidates sharing a normalization key that
tie on cover presence, popularity and source rank are merged
order-dependently — pick(a,b) keeps a while pick(b,a) keeps b, and the two
records differ — so the binary merge does not select the same winner
regardless of argument order, and folding [a,b] versus [b,a] yields different
final records. -/
theorem pick_tie_order_dependent :
    pickBetterCandidate ebookA ebookB = ebookA
      ∧ pickBetterCandidate ebookB ebookA = ebookB
      ∧ ebookA ≠ ebookB :=
  ⟨rfl, rfl, by decide⟩

/-- The binary merge rule is symmetric in its arguments whenever the two
candidates differ in cover presence, numeric popularity, or source rank. -/
theorem pick_comm_of_distinct (a b : ApiEbook)
    (h : coverTruthy a ≠ coverTruthy b ∨ popVal a ≠ popVal b ∨ rankVal a ≠ rankVal b) :
    pickBetterCandidate a b = pickBetterCandidate b a := by
  unfold pickBetterCandidate
  split_ifs <;> first | rfl | tauto | omega | simp_all

/-- Not-strictly-beaten is transitive: the quality order behind the merge
rule is a linear order on the (cover, popularity, rank) key. -/
theorem qge_trans (a b c : ApiEbook) (h1 : ¬ qBetter a b) (h2 : ¬ qBetter b c) :
    ¬ qBetter a c := by
  unfold qBetter at *
  cases hca : coverTruthy a <;> cases hcb : coverTruthy b <;> cases hcc : coverTruthy c <;>
    simp_all <;> omega

/-- The winner of one binary merge is beaten by neither argument. -/
theorem pick_dom (x y : ApiEbook) :
    ¬ qBetter (pickBetterCandidate x y) x ∧ ¬ qBetter (pickBetterCandidate x y) y := by
  unfold pickBetterCandidate qBetter
  cases hcx : coverTruthy x <;> cases hcy : coverTruthy y <;>
    split_ifs <;> constructor <;> simp_all <;> omega

/-- Two candidates neither of which strictly beats the other are fully tied
on cover presence, popularity and source rank. -/
theorem qtied_of_not_better (a b : ApiEbook) (h1 : ¬ qBetter a b) (h2 : ¬ qBetter b a) :
    qTied a b := by
  unfold qBetter at *
  unfold qTied
  cases hca : coverTruthy a <;> cases hcb : coverTruthy b <;> simp_all <;> omega

/-- The full tie relation is symmetric. -/
theorem qTied_symm (a b : ApiEbook) (h : qTied a b) : qTied b a :=
  ⟨h.1.symm, h.2.1.symm, h.2.2.symm⟩

/-- Folding a group through the binary merge yields a member of the group
that no member of the group strictly beats. -/
theorem foldl_pick_dom (xs : List ApiEbook) : ∀ x : ApiEbook,
    (List.foldl pickBetterCandidate x xs = x ∨ List.foldl pickBetterCandidate x xs ∈ xs)
      ∧ ¬ qBetter (List.foldl pickBetterCandidate x xs) x
      ∧ ∀ b ∈ xs, ¬ qBetter (List.foldl pickBetterCandidate x xs) b := by
  induction xs with
  | nil =>
    intro x
    refine ⟨Or.inl rfl, ?_, by simp⟩
    unfold qBetter
    cases hcx : coverTruthy x <;> simp_all
  | cons y ys ih =>
    intro x
    rw [List.foldl_cons]
    obtain ⟨hmem, hdomacc, hdomall⟩ := ih (pickBetterCandidate x y)
    refine ⟨?_, ?_, ?_⟩
    · rcases hmem with h | h
      · rcases pick_eq_or x y with hp | hp
        · exact Or.inl (h.trans hp)
        · exact Or.inr (by rw [h, hp]; exact List.mem_cons_self _ _)
      · exact Or.inr (List.mem_cons_of_mem _ h)
    · exact qge_trans _ _ _ hdomacc (pick_dom x y).1
    · intro b hb
      rcases List.mem_cons.mp hb with hb | hb
      · subst hb
        exact qge_trans _ _ _ hdomacc (pick_dom x b).2
      · exact hdomall b hb

/-- Folding a fixed candidate group through the binary merge is invariant
under permutation of the fold order, provided no two candidates of the group
are fully tied: any two fold results are mutually unbeaten members of the
group, hence tied, hence equal. -/
theorem foldWinner_perm (l₁ l₂ : List ApiEbook) (hperm : l₁.Perm l₂)
    (hpair : l₁.Pairwise (fun u v => ¬ qTied u v)) :
    foldWinner l₁ = foldWinner l₂ := by
  cases l₁ with
  | nil =>
    have h2 : l₂ = [] := hperm.symm.eq_nil
    subst h2
    rfl
  | cons x xs =>
    cases l₂ with
    | nil => exact absurd hperm.eq_nil (by simp)
    | cons y ys =>
      obtain ⟨hm1, hd1acc, hd1all⟩ := foldl_pick_dom xs x
      obtain ⟨hm2, hd2acc, hd2all⟩ := foldl_pick_dom ys y
      have hw1mem : List.foldl pickBetterCandidate x xs ∈ x :: xs := by
        rcases hm1 with h | h
        · rw [h]; exact List.mem_cons_self _ _
        · exact List.mem_cons_of_mem _ h
      have hw2mem' : List.foldl pickBetterCandidate y ys ∈ y :: ys := by
        rcases hm2 with h | h
        · rw [h]; exact List.mem_cons_self _ _
        · exact List.mem_cons_of_mem _ h
      have hw2mem : List.foldl pickBetterCandidate y ys ∈ x :: xs :=
        hperm.mem_iff.mpr hw2mem'
      have hd1 : ∀ b ∈ x :: xs, ¬ qBetter (List.foldl pickBetterCandidate x xs) b := by
        intro b hb
        rcases List.mem_cons.mp hb with hb | hb
        · rw [hb]; exact hd1acc
        · exact hd1all b hb
      have hd2 : ∀ b ∈ x :: xs, ¬ qBetter (List.foldl pickBetterCandidate y ys) b := by
        intro b hb
        rcases List.mem_cons.mp (hperm.mem_iff.mp hb) with hb2 | hb2
        · rw [hb2]; exact hd2acc
        · exact hd2all b hb2
      have htied : qTied (List.foldl pickBetterCandidate x xs)
          (List.foldl pickBetterCandidate y ys) :=
        qtied_of_not_better _ _ (hd1 _ hw2mem) (hd2 _ hw1mem)
      by_cases heq : List.foldl pickBetterCandidate x xs = List.foldl pickBetterCandidate y ys
      · simp [foldWinner, heq]
      · exfalso
        have hsym : Symmetric (fun u v : ApiEbook => ¬ qTied u v) := by
          intro u v h ht
          exact h (qTied_symm _ _ ht)
        exact (List.Pairwise.forall hsym hpair hw1mem hw2mem heq) htied

/-- Claim C2 (amended): for two candidates sharing a normalization key,
pickBetterCandidate selects the same winner regardless of argument order
whenever the two differ in cover presence, numeric popularity, or source
rank; when all three agree the rule keeps its first (earlier-seen) argument,
so the claimed symmetry fails exactly on fully tied pairs; and for a fixed
candidate group in which no two members are fully tied, folding the group
through pickBetterCandidate yields the same final winning record regardless
of the order the candidates are folded in. -/
theorem pick_merge_order_independent (a b : ApiEbook) (l₁ l₂ : List ApiEbook)
    (hab : coverTruthy a ≠ coverTruthy b ∨ popVal a ≠ popVal b ∨ rankVal a ≠ rankVal b)
    (hperm : l₁.Perm l₂)
    (hpair : l₁.Pairwise (fun u v => ¬ qTied u v)) :
    pickBetterCandidate a b = pickBetterCandidate b a ∧ foldWinner l₁ = foldWinner l₂ :=
  ⟨pick_comm_of_distinct a b hab, foldWinner_perm l₁ l₂ hperm hpair⟩

/-- Witness for C2 (amended): a cover-bearing and a coverless candidate merge
to the same winner in either order, and folding the two-candidate group in
either order yields the same winning record. -/
theorem pick_merge_order_independent_witness :
    pickBetterCandidate ebookC ebookA = pickBetterCandidate ebookA ebookC
      ∧ foldWinner [ebookA, ebookC] = foldWinner [ebookC, ebookA] :=
  pick_merge_order_independent ebookC ebookA [ebookA, ebookC] [ebookC, ebookA]
    (Or.inl (by decide)) (by decide) (by decide)

/-- Counterexample for C3: the persisted dedup key toCatalogId does not strip
subtitles, so the key of the subtitled title differs from the key of the bare
lower-case title; the claimed equality fails on its own example strings. -/
theorem catalog_key_subtitle_sensitive :
    toCatalogId ("en".toList) ("The Great Adventure: A Tale".toList) ("J. Doe".toList)
      ≠ toCatalogId ("en".toList) ("the great   adventure".toList) ("j. doe".toList) := by
  decide

/-- Claim C3 (amended): the dedup key is case- and whitespace-insensitive but
not subtitle-insensitive; once the subtitle is stripped by the separate title
cleanup normalizeMainTitle, the keys of the claim's two spellings coincide
for every language. -/
theorem catalog_key_insensitive_after_main_title (lang : List Char) :
    toCatalogId lang (normalizeMainTitle ("The Great Adventure: A Tale".toList)) ("J. Doe".toList)
      = toCatalogId lang ("the great   adventure".toList) ("j. doe".toList) := by
  simp only [toCatalogId, List.append_assoc]
  exact congrArg (fun t => lang ++ t) (by decide)

/-- Counterexample for C4: a first-attempt HTTP 500 with retries remaining is
not retried by the Gutendex fetch loop — it stops the page loop early —
contradicting the claim that 5xx responses are retried with backoff. -/
theorem gutendex_5xx_not_retried :
    gutendexRetryDecision 500 0 3 none = .stop
      ∧ gutendexRetryDecision 500 0 3 none ≠ .retry (gutendexBackoffMs 0 none) := by
  decide

/-- Claim C4 (amended): only HTTP 429 is retried, up to the fixed bound of 3
attempts, with exponential backoff base 800 ms, factor 2, capped at 8000 ms,
plus random jitter, and a Retry-After header value in seconds (clamped below
by 1, times 1000) is used in preference to the computed backoff — in
particular a 429 with Retry-After 2 waits a base of 2000 ms; every 5xx
response stops the fetch early without a retry. -/
theorem gutendex_retry_amended (attempt maxRetries : Nat) (ra : Option Int)
    (h : attempt < maxRetries) :
    gutendexRetryDecision 429 attempt maxRetries ra
        = .retry (gutendexBackoffMs attempt ra)
      ∧ (∀ s, 500 ≤ s → s ≤ 599 →
          gutendexRetryDecision s attempt maxRetries ra = .stop)
      ∧ gutendexBackoffMs attempt (some 2) = 2000
      ∧ gutendexBackoffMs attempt none = min 8000 (800 * 2 ^ attempt) := by
  refine ⟨?_, ?_, by norm_num [gutendexBackoffMs], rfl⟩
  · have h1 : ¬(attempt ≥ maxRetries) := by omega
    simp [gutendexRetryDecision, h1]
  · intro s h5 h6
    have h1 : ¬(s = 404) := by omega
    have h2 : ¬(s = 429) := by omega
    have h3 : ¬(respOk s = true) := by simp [respOk]; omega
    simp [gutendexRetryDecision, h1, h2, h3]

/-- Witness for C4 (amended): at attempt 0 of 3 a 429 with Retry-After 2 is
retried with the header-derived wait, while a 503 stops the loop. -/
theorem gutendex_retry_amended_witness :
    gutendexRetryDecision 429 0 3 (some 2) = .retry (gutendexBackoffMs 0 (some 2))
      ∧ gutendexRetryDecision 503 0 3 (some 2) = .stop :=
  ⟨(gutendex_retry_amended 0 3 (some 2) (by decide)).1,
   (gutendex_retry_amended 0 3 (some 2) (by decide)).2.1 503 (by decide) (by decide)⟩

/-- Claim C5: a block signal from ManyBooks (HTTP 403/429 or a challenge
response) opens the circuit for exactly MANYBOOKS_BLOCK_TTL_MS (one hour)
from the moment it is processed; every fetchManyBooks entry within that
window returns the empty result immediately — the guard branch issues no
outbound request and raises no error — and once the window has elapsed an
outbound request is attempted again. -/
theorem manybooks_circuit_breaker (bu t0 t : Nat) (resp : MBResponse)
    (hopen : bu ≤ t0) (hsig : mbBlockSignal resp = true) :
    (mbXmlResult bu t0 resp).1 = t0 + MANYBOOKS_BLOCK_TTL_MS
      ∧ (t < t0 + MANYBOOKS_BLOCK_TTL_MS →
          manyBooksFetchEntry (t0 + MANYBOOKS_BLOCK_TTL_MS) t = .empty)
      ∧ (t0 + MANYBOOKS_BLOCK_TTL_MS ≤ t →
          manyBooksFetchEntry (t0 + MANYBOOKS_BLOCK_TTL_MS) t = .attempt) := by
  unfold mbBlockSignal at hsig
  rw [Bool.and_eq_true] at hsig
  obtain ⟨h1, h2⟩ := hsig
  have h2' : mbEffectiveStatus resp = 403 ∨ mbEffectiveStatus resp = 429 := by
    simpa using h2
  have hnb : ¬(t0 < bu) := by omega
  refine ⟨?_, fun ht => ?_, fun ht => ?_⟩
  · unfold mbXmlResult
    rw [if_neg hnb, if_pos h1, if_pos h2']
  · unfold manyBooksFetchEntry
    rw [if_pos ht]
  · unfold manyBooksFetchEntry
    rw [if_neg (by omega)]

/-- Witness for C5: a concrete 403 HTML challenge processed at time 1000
blocks a fetch at time 2000 and admits one at time 4000000. -/
theorem manybooks_circuit_breaker_witness :
    (mbXmlResult 0 1000 mbBlockedRespEx).1 = 1000 + MANYBOOKS_BLOCK_TTL_MS
      ∧ manyBooksFetchEntry (1000 + MANYBOOKS_BLOCK_TTL_MS) 2000 = .empty
      ∧ manyBooksFetchEntry (1000 + MANYBOOKS_BLOCK_TTL_MS) 4000000 = .attempt :=
  ⟨(manybooks_circuit_breaker 0 1000 0 mbBlockedRespEx (by decide) (by decide)).1,
   (manybooks_circuit_breaker 0 1000 2000 mbBlockedRespEx (by decide) (by decide)).2.1
     (by decide),
   (manybooks_circuit_breaker 0 1000 4000000 mbBlockedRespEx (by decide) (by decide)).2.2
     (by decide)⟩

/-- The best-candidate fold of pickBestOlDoc either returns its starting
accumulator or an eligible document of the list together with its own score
and bonus. -/
theorem olBestFold_spec (wt wa : List Char) (rc ra : Bool) :
    ∀ (docs : List OlDoc) (acc : Option (OlDoc × Nat × Nat)) (d : OlDoc) (s b : Nat),
      docs.foldl
        (fun best d =>
          if olDocEligible rc ra d then
            let score := olDocScore wt wa d
            let bonus := olDocBonus d
            match best with
            | none => some (d, score, bonus)
            | some (_, bs, bb) =>
              if score > bs ∨ (score = bs ∧ bonus > bb) then some (d, score, bonus)
              else best
          else best)
        acc = some (d, s, b) →
      acc = some (d, s, b)
        ∨ (d ∈ docs ∧ olDocEligible rc ra d = true
            ∧ s = olDocScore wt wa d ∧ b = olDocBonus d) := by
  intro docs
  induction docs with
  | nil => intro acc d s b h; exact Or.inl h
  | cons x xs ih =>
    intro acc d s b h
    rw [List.foldl_cons] at h
    rcases ih _ d s b h with hacc | hmem
    · by_cases he : olDocEligible rc ra x = true
      · rcases acc with _ | ⟨⟨d0, s0, b0⟩⟩
        · simp [he] at hacc
          obtain ⟨hxd, hs, hb⟩ := hacc
          subst hxd
          exact Or.inr ⟨List.mem_cons_self x xs, he, hs.symm, hb.symm⟩
        · simp only [he, if_true] at hacc
          split at hacc
          · simp at hacc
            obtain ⟨hxd, hs, hb⟩ := hacc
            subst hxd
            exact Or.inr ⟨List.mem_cons_self x xs, he, hs.symm, hb.symm⟩
          · exact Or.inl hacc
      · simp only [he] at hacc
        simp at hacc
        exact Or.inl hacc
    · exact Or.inr ⟨List.mem_cons_of_mem _ hmem.1, hmem.2⟩

/-- Counterexample for C6: the acceptance threshold of pickBestOlDoc is not
stricter for an unknown author as such, nor for short titles as such — for a
four-token title the unknown-author threshold equals the known-author
threshold (8), and for a known author a three-token title still gets 8; only
the combination unknown author and at most three tokens raises it to 10. -/
theorem ol_threshold_not_stricter :
    olThreshold false 4 = 8 ∧ olThreshold true 4 = 8
      ∧ olThreshold true 3 = 8 ∧ olThreshold false 3 = 10 := by
  decide

/-- Claim C6 (amended): every enrichment lookup result accepted by
pickBestOlDoc is an eligible document drawn from the searched list whose
match score reaches the minimum threshold — 8 when the wanted author is
known, 10 when the author is unknown and the normalized title has at most
three tokens, 8 otherwise — and every result below the threshold is rejected
(the lookup returns none). -/
theorem pickBestOlDoc_above_threshold (docs : List OlDoc) (title author : List Char)
    (rc ra : Bool) (d : OlDoc)
    (h : pickBestOlDoc docs title author rc ra = some d) :
    d ∈ docs ∧ olDocEligible rc ra d = true
      ∧ olThreshold (olAuthorKnown (normalizeForLookup author))
          (splitTokens (normalizeForLookup title)).length
        ≤ olDocScore (normalizeForLookup title) (normalizeForLookup author) d := by
  simp only [pickBestOlDoc] at h
  cases hf : olBestFold (normalizeForLookup title) (normalizeForLookup author) rc ra docs with
  | none => rw [hf] at h; simp at h
  | some t =>
    obtain ⟨d', s, b⟩ := t
    rw [hf] at h
    simp only [] at h
    split at h
    · exact absurd h (by simp)
    · next hth =>
      injection h with h
      have hgo := olBestFold_spec (normalizeForLookup title) (normalizeForLookup author)
        rc ra docs none d' s b hf
      rcases hgo with hacc | ⟨hmem, helig, hs, _⟩
      · exact absurd hacc (by simp)
      · rw [← h]
        exact ⟨hmem, helig, by omega⟩

/-- Witness for C6 (amended): an exact title and author match with a cover is
accepted and scores above the known-author threshold. -/
theorem pickBestOlDoc_above_threshold_witness :
    olDocEx ∈ [olDocEx] ∧ olDocEligible false false olDocEx = true
      ∧ olThreshold (olAuthorKnown (normalizeForLookup ("Jane Austen".toList)))
          (splitTokens (normalizeForLookup ("Pride and Prejudice".toList))).length
        ≤ olDocScore (normalizeForLookup ("Pride and Prejudice".toList))
            (normalizeForLookup ("Jane Austen".toList)) olDocEx :=
  pickBestOlDoc_above_threshold [olDocEx] ("Pride and Prejudice".toList)
    ("Jane Austen".toList) false false olDocEx (by decide)

/-- Counterexample for C7: the search read operation returns a page that is
exhausted — the computed offset 5 + 10 has reached the known total 15 — yet
its nextCursor is some 15 rather than null, because the search handler falls
back to a non-null cursor whenever a full page was returned. -/
theorem search_boundary_nextCursor_not_null :
    (searchPage rowsEx 5 10).items.length = 10
      ∧ (searchPage rowsEx 5 10).total = 15
      ∧ 15 ≤ 5 + (searchPage rowsEx 5 10).items.length
      ∧ (searchPage rowsEx 5 10).nextCursor = some 15 := by
  decide

/-- Claim C7 (amended): for every paginated read with a consistent total and
a positive limit, the returned items list has length at most limit; for the
category and author operations nextCursor is null exactly when the result is
exhausted (fewer than limit rows returned or the offset has reached the
total), while for the search operation nextCursor is null exactly when fewer
than limit rows were returned — a search page ending exactly at the total
still carries a non-null nextCursor. -/
theorem pagination_amended (rows : List EbookCatalogItemRow)
    (total cursor limit : Nat) (allowEmpty : Bool)
    (htot : total = rows.length) (hlim : 0 < limit) :
    (∀ p, categoryPage rows total cursor limit allowEmpty = some p →
        p.items.length ≤ limit
          ∧ (p.nextCursor = none
              ↔ (p.items.length < limit ∨ total ≤ cursor + p.items.length)))
      ∧ (∀ p, authorPage rows total cursor limit = some p →
          p.items.length ≤ limit
            ∧ (p.nextCursor = none
                ↔ (p.items.length < limit ∨ total ≤ cursor + p.items.length)))
      ∧ (searchPage rows cursor limit).items.length ≤ limit
      ∧ ((searchPage rows cursor limit).nextCursor = none
          ↔ (searchPage rows cursor limit).items.length < limit) := by
  have hlen : (dbRange rows cursor limit).length = min limit (rows.length - cursor) := by
    simp [dbRange]
  refine ⟨?_, ?_, ?_, ?_⟩
  · intro p hp
    simp only [categoryPage] at hp
    by_cases hempty : (dbRange rows cursor limit).isEmpty = true
    · rw [if_pos hempty] at hp
      by_cases hae : allowEmpty = true
      · rw [if_pos hae] at hp
        injection hp with hp
        subst hp
        refine ⟨by simp, by simp; omega⟩
      · rw [if_neg hae] at hp
        exact absurd hp (by simp)
    · rw [if_neg hempty] at hp
      injection hp with hp
      subst hp
      have hne : (dbRange rows cursor limit).length ≠ 0 := by
        simpa [List.isEmpty_iff, List.length_eq_zero] using hempty
      refine ⟨by simp; omega, ?_⟩
      simp only []
      split_ifs with h1 <;> simp <;> omega
  · intro p hp
    simp only [authorPage] at hp
    by_cases hempty : (dbRange rows cursor limit).isEmpty = true
    · rw [if_pos hempty] at hp
      exact absurd hp (by simp)
    · rw [if_neg hempty] at hp
      injection hp with hp
      subst hp
      have hne : (dbRange rows cursor limit).length ≠ 0 := by
        simpa [List.isEmpty_iff, List.length_eq_zero] using hempty
      refine ⟨by simp; omega, ?_⟩
      simp only []
      split_ifs with h1 <;> simp <;> omega
  · simp only [searchPage]
    omega
  · simp only [searchPage]
    split_ifs with h1 h2 <;> simp <;> omega

/-- Witness for C7 (amended): the search contract instantiated on the
concrete fifteen-row set with cursor 0 and limit 10. -/
theorem pagination_amended_witness :
    (searchPage rowsEx 0 10).items.length ≤ 10
      ∧ ((searchPage rowsEx 0 10).nextCursor = none
          ↔ (searchPage rowsEx 0 10).items.length < 10) :=
  (pagination_amended rowsEx 15 0 10 false (by decide) (by decide)).2.2

/-- A key set into an association map is found by a subsequent lookup. -/
theorem lookupA_setA_self {V : Type} (m : List (List Char × V)) (k : List Char) (v : V) :
    lookupA (setA m k v) k = some v := by
  induction m with
  | nil => simp [setA, lookupA]
  | cons hd tl ih =>
    obtain ⟨k', v'⟩ := hd
    by_cases h : k' = k <;> simp [setA, lookupA, h, ih]

/-- A key deleted from the in-flight set is no longer a member. -/
theorem not_mem_eraseKey (l : List (List Char)) (k : List Char) :
    k ∉ eraseKey l k := by
  induction l with
  | nil => simp [eraseKey]
  | cons hd tl ih =>
    by_cases h : hd = k <;> simp [eraseKey, h, ih]
    exact fun hk => h hk.symm

/-- Counterexample for C8: after a failed compute the enrichment single-flight
cache does cache a value — the all-null negative match — so a call one
millisecond later returns that cached failure instead of re-invoking the
computation. -/
theorem ol_failure_negative_cached :
    olLookup (olComplete ⟨[], ["enk".toList]⟩ ("enk".toList) 0 none) ("enk".toList) 1
        = .hit olNullMatch
      ∧ olLookup (olComplete ⟨[], ["enk".toList]⟩ ("enk".toList) 0 none) ("enk".toList) 1
        ≠ .compute := by
  decide

/-- Claim C8 (amended): when the underlying compute fails, the pool
single-flight cache clears the in-flight entry and caches nothing, so a
subsequent call with the same key re-invokes the computation; the enrichment
single-flight cache also clears its in-flight entry but stores the all-null
match under a six-hour negative TTL, so within that window a subsequent call
returns the cached negative result without re-invoking, and only after the
window expires is the computation re-invoked. -/
theorem cache_failure_amended (pst : PoolCacheState) (ost : OlCacheState)
    (k : List Char) (now t : Nat) (hc : lookupA pst.cache k = none) :
    poolLookup (poolComplete pst k now none) k t = .compute
      ∧ (t < now + OL_NEGATIVE_TTL_MS →
          olLookup (olComplete ost k now none) k t = .hit olNullMatch)
      ∧ (now + OL_NEGATIVE_TTL_MS ≤ t →
          olLookup (olComplete ost k now none) k t = .compute) := by
  refine ⟨?_, fun ht => ?_, fun ht => ?_⟩
  · simp [poolLookup, poolComplete, hc, not_mem_eraseKey]
  · simp [olLookup, olComplete, lookupA_setA_self, ht]
  · simp [olLookup, olComplete, lookupA_setA_self, not_mem_eraseKey]
    omega

/-- Witness for C8 (amended): a failed pool compute leaves a state in which
the same key immediately re-computes. -/
theorem cache_failure_amended_witness :
    poolLookup (poolComplete ⟨[], ["en:600".toList]⟩ ("en:600".toList) 0 none)
        ("en:600".toList) 5 = .compute :=
  (cache_failure_amended ⟨[], ["en:600".toList]⟩ ⟨[], []⟩ ("en:600".toList) 0 5 rfl).1

/-- Claim C9: the import merge never downgrades an existing persisted row —
an existing non-empty (trimmed) download_url is kept verbatim and is only
backfilled from the incoming row when empty, the cover is replaced by the
incoming cover exactly under the upgrade guard (existing cover missing or a
generic auto-generated Gutenberg cover) and a non-empty non-generic existing
cover is kept, and a row admitting neither the cover upgrade nor the
download backfill is not written at all. -/
theorem import_never_downgrades (lang source : List Char)
    (existing row : EbookCatalogItemRow) :
    (importMergeExisting lang source existing row = none ↔
        (canUpgradeCover existing row = false ∧ canBackfillDownloadUrl existing row = false))
      ∧ ∀ m, importMergeExisting lang source existing row = some m →
          (trimL existing.download_url ≠ [] → m.download_url = trimL existing.download_url)
          ∧ (trimL existing.download_url = [] → m.download_url = row.download_url)
          ∧ (canUpgradeCover existing row = true →
              m.cover_url = some (trimL (row.cover_url.getD [])))
          ∧ (trimL (existing.cover_url.getD []) ≠ []
                ∧ isProbablyGenericGutenbergCover (trimL (existing.cover_url.getD [])) = false →
              m.cover_url = some (trimL (existing.cover_url.getD []))) := by
  by_cases hg : (!canUpgradeCover existing row && !canBackfillDownloadUrl existing row) = true
  · rw [Bool.and_eq_true, Bool.not_eq_true', Bool.not_eq_true'] at hg
    constructor
    · simp [importMergeExisting, hg.1, hg.2]
    · intro m hm
      rw [importMergeExisting] at hm
      simp [hg.1, hg.2] at hm
  · constructor
    · rw [importMergeExisting, if_neg hg]
      simp
      intro h1
      cases hb : canBackfillDownloadUrl existing row
      · exact absurd (by simp [h1, hb]) hg
      · rfl
    · intro m hm
      rw [importMergeExisting, if_neg hg] at hm
      injection hm with hm
      subst hm
      refine ⟨fun hdl => ?_, fun hdl => ?_, fun hcu => ?_, fun hpres => ?_⟩
      · simp [hdl]
      · simp [hdl]
      · simp [hcu]
      · have hcu : canUpgradeCover existing row = false := by
          unfold canUpgradeCover
          simp [hpres.1, hpres.2]
        simp [hcu, hpres.1]

/-- Witness for C9: a row with a good cover and download url admits no
upgrade and is not written, while a generic-cover row is upgraded with its
download url kept and its cover replaced by the incoming one. -/
theorem import_never_downgrades_witness :
    importMergeExisting ("en".toList) ("manybooks".toList) importExistingEx importIncomingEx = none
      ∧ importMergedEx.download_url = trimL importExistingGenericEx.download_url
      ∧ importMergedEx.cover_url = some (trimL (importIncomingEx.cover_url.getD [])) :=
  ⟨(import_never_downgrades ("en".toList) ("manybooks".toList) importExistingEx importIncomingEx).1.mpr
      ⟨by decide, by decide⟩,
   ((import_never_downgrades ("en".toList) ("manybooks".toList) importExistingGenericEx importIncomingEx).2
      importMergedEx (by decide)).1 (by decide),
   ((import_never_downgrades ("en".toList) ("manybooks".toList) importExistingGenericEx importIncomingEx).2
      importMergedEx (by decide)).2.2.1 (by decide)⟩

/-- Claim C10: whenever the requested cursor window of a single-category
request without the allowEmpty flag, or of a single-author request, matches
zero rows — in particular a cursor at or past the end of a non-empty result
set — the service responds 404 (modelled as none) instead of a normal page
with an empty items list and a null nextCursor. -/
theorem empty_window_returns_404 (rows : List EbookCatalogItemRow)
    (total cursor limit : Nat) (h : dbRange rows cursor limit = []) :
    categoryPage rows total cursor limit false = none
      ∧ authorPage rows total cursor limit = none := by
  unfold categoryPage authorPage
  simp [h]

/-- Witness for C10: a cursor at the end of the concrete non-empty fifteen-row
set yields 404 on both the category and the author operations. -/
theorem empty_window_returns_404_witness :
    rowsEx ≠ []
      ∧ categoryPage rowsEx 15 15 10 false = none
      ∧ authorPage rowsEx 15 15 10 = none :=
  ⟨by decide,
   (empty_window_returns_404 rowsEx 15 15 10 (by decide)).1,
   (empty_window_returns_404 rowsEx 15 15 10 (by decide)).2⟩

end PolyglotReader
